import Mathlib

/-!
Verification of the SkillCert course-registry contracts (Rust/Soroban sources under
`src/contracts/course/`).  The contract code is shallowly embedded: Soroban persistent
storage becomes explicit record-of-maps state, host panics (`handle_error`, `expect`)
become `Except Error` results (the host discards all writes of an aborted call, so an
error result carries no state), machine integers become `Nat` with the `as u32`
truncation kept explicit as `% 2^32`, and `soroban_sdk::Address` becomes an opaque
`Nat`.  Course identifiers are decimal strings produced by `u32_to_string`
(`functions/utils.rs`, not in the source tree; the spec fixes it as decimal rendering
of a `u32`).  Decimal rendering is injective, so those strings are modelled by their
numeric value; the truncation of `id as u32` at each call site is kept as `u32cast`.

Constants `MAX_SCAN_ID`, `MAX_EMPTY_CHECKS` and `MAX_LOOP_GUARD` live in `schema.rs`,
which is not in the source tree; the spec asserts their existence ("hard maximum scan
id", "empty-check streak" ceiling, hard loop ceiling) but no values, so every embedded
scan takes them as explicit parameters.
-/

deriving instance DecidableEq for Except

namespace SkillCert

/-- Soroban `Address`, opaque with decidable equality. -/
abbrev Addr := Nat

/-- The bound of `u32`. -/
def U32LIM : Nat := 4294967296

/-- The bound of `u128`. -/
def U128LIM : Nat := 340282366920938463463374607431768211456

/-- The Rust `as u32` cast (truncation). -/
def u32cast (n : Nat) : Nat := n % U32LIM

/-- Error kinds raised through `handle_error` in the sources.  `error.rs` is not in
the source tree; the variant names are the ones the sources mention, plus
`CourseNotFound` for the `expect` panic in `edit_course.rs` and
`RateLimitExceeded` for the rate limiter of the spec (§4.4, §7). -/
inductive Error where
  | InvalidLimitValue
  | InvalidOffsetValue
  | OffChainRefIdRequired
  | ContentHashRequired
  | InvalidPrice
  | EmptyCategory
  | InvalidLanguageLength
  | InvalidDurationValue
  | DuplicateCourseId
  | EmptyCourseId
  | InvalidModulePosition
  | CourseIdNotExist
  | DuplicateModulePosition
  | Unauthorized
  | CourseNotFound
  | RateLimitExceeded
  deriving Repr, DecidableEq

/-- `schema::Course` (schema.rs is not in the source tree; the fields are exactly the
ones the `Course` literal in `create_course.rs` lines 77-90 supplies).  `id` is the
decimal string of the allocated identifier, modelled numerically; `level` is
`CourseLevel`, which the tests build from plain strings. -/
structure Course where
  id : Nat
  off_chain_ref_id : String
  content_hash : String
  creator : Addr
  price : Nat
  category : Option String
  language : Option String
  published : Bool
  prerequisites : List Nat
  is_archived : Bool
  level : Option String
  duration_hours : Option Nat
  deriving Repr, DecidableEq

/-- `schema::CourseFilters`, fields as used in `list_courses_with_filters.rs`
lines 66-81 and its tests. -/
structure CourseFilters where
  min_price : Option Nat
  max_price : Option Nat
  category : Option String
  level : Option String
  min_duration : Option Nat
  max_duration : Option Nat
  deriving Repr, DecidableEq

/-- The filter predicate of `list_courses_with_filters.rs` lines 66-81. -/
def passes_filters (f : CourseFilters) (c : Course) : Bool :=
  (match f.min_price with | none => true | some min => decide (min ≤ c.price)) &&
  (match f.max_price with | none => true | some max => decide (c.price ≤ max)) &&
  (match f.category with | none => true | some cat => c.category == some cat) &&
  (match f.level with | none => true | some lvl => c.level == some lvl) &&
  (match f.min_duration with
    | none => true
    | some min => match c.duration_hours with | none => false | some d => decide (min ≤ d)) &&
  (match f.max_duration with
    | none => true
    | some max => match c.duration_hours with | none => false | some d => decide (d ≤ max))

/-- The scan loop of `list_courses_with_filters.rs` lines 39-96.  The source loop
breaks when `id > MAX_SCAN_ID || empty_checks > MAX_EMPTY_CHECKS`; the first disjunct
is encoded as fuel exhaustion with `fuel = MAX_SCAN_ID + 1 - id`, so the entry call
uses `fuel = maxScanId` with `id = 1`.  The storage key is the decimal string of
`id as u32` (line 46), hence the `u32cast` lookup. -/
def lcwf_loop (store : Nat → Option Course) (f : CourseFilters)
    (offv maxLimit maxEmpty : Nat) :
    Nat → Nat → Nat → Nat → Nat → List Course → List Course
  | 0, _, _, _, _, acc => acc
  | fuel + 1, id, cnt, matched, empty, acc =>
    if maxEmpty < empty then acc
    else
      match store (u32cast id) with
      | none => lcwf_loop store f offv maxLimit maxEmpty fuel (id + 1) cnt matched (empty + 1) acc
      | some c =>
        if c.is_archived || !c.published then
          lcwf_loop store f offv maxLimit maxEmpty fuel (id + 1) cnt matched 0 acc
        else if passes_filters f c then
          if offv ≤ matched then
            if cnt < maxLimit then
              lcwf_loop store f offv maxLimit maxEmpty fuel (id + 1) (cnt + 1) (matched + 1) 0
                (acc ++ [c])
            else acc
          else lcwf_loop store f offv maxLimit maxEmpty fuel (id + 1) cnt (matched + 1) 0 acc
        else lcwf_loop store f offv maxLimit maxEmpty fuel (id + 1) cnt matched 0 acc

/-- `list_courses_with_filters` (lines 9-99): pagination validation, the defaults
`offset.unwrap_or(0)` and `limit.unwrap_or(10)`, the internal cap of the effective
page size at 20, then the scan loop. -/
def list_courses_with_filters (maxScanId maxEmpty : Nat) (store : Nat → Option Course)
    (filters : CourseFilters) (limit offset : Option Nat) : Except Error (List Course) :=
  if (match limit with | some l => decide (100 < l) | none => false) then
    Except.error Error.InvalidLimitValue
  else if (match offset with | some o => decide (10000 < o) | none => false) then
    Except.error Error.InvalidOffsetValue
  else
    let offset_value := offset.getD 0
    let limit_value := limit.getD 10
    let max_limit := if 20 < limit_value then 20 else limit_value
    Except.ok (lcwf_loop store filters offset_value max_limit maxEmpty maxScanId 1 0 0 0 [])

/-- A course is visible to the filtered listing: not archived, published (lines 59-63)
and passing every supplied predicate. -/
def visible (f : CourseFilters) (c : Course) : Bool :=
  !c.is_archived && c.published && passes_filters f c

/-- The courses stored at the `len` consecutive identifiers starting at `start`,
in increasing-identifier order. -/
def scanCourses (store : Nat → Option Course) : Nat → Nat → List Course
  | _, 0 => []
  | id, len + 1 =>
    match store id with
    | some c => c :: scanCourses store (id + 1) len
    | none => scanCourses store (id + 1) len

/-- The matching courses of a storage state whose identifiers run over `1..n`,
in increasing-identifier order. -/
def matchSeq (store : Nat → Option Course) (f : CourseFilters) (n : Nat) : List Course :=
  (scanCourses store 1 n).filter (visible f)

/-- A storage state holds exactly the course identifiers `1..n` (the shape
`create_course` produces: identifiers are allocated contiguously from 1). -/
def contiguous (store : Nat → Option Course) (n : Nat) : Prop :=
  ∀ id, (store id).isSome ↔ (1 ≤ id ∧ id ≤ n)

/-- `schema::CourseModule` (schema.rs is not in the source tree; fields from the
literal in `add_module.rs` lines 75-81).  The flat id string
`module_{course_id}_{position}_{ledger_seq}` decomposes uniquely, because the last
two `_`-separated tokens are pure decimal renderings; it is modelled by the triple
it encodes. -/
structure CourseModule where
  id : Nat × Nat × Nat
  course_id : Nat
  position : Nat
  content_hash : String
  created_at : Nat
  deriving Repr, DecidableEq

/-- Rate-limit record.  Modelled from the spec: "RateLimitCounter: per-creator-identity
counter plus window-start timestamp" (§3); `course_rate_limit_utils.rs` is not in the
source tree. -/
structure RateRecord where
  count : Nat
  window_start : Nat
  deriving Repr, DecidableEq

/-- The persistent storage of the course-registry contract, restricted to the keys the
embedded operations touch: the `COURSE_ID` allocation counter, the `("course", id)`
records, the `("module", id)` records, the `("pos", course, position)` markers
(storing `true`; modelled by presence), and the per-creator rate-limit records. -/
structure RegistryState where
  course_counter : Option Nat
  courses : Nat → Option Course
  modules : Nat × Nat × Nat → Option CourseModule
  pos_taken : Nat × Nat → Bool
  rate : Addr → Option RateRecord

/-- The storage of a freshly deployed registry: every key absent. -/
def emptyRegistryState : RegistryState :=
  { course_counter := none
    courses := fun _ => none
    modules := fun _ => none
    pos_taken := fun _ => false
    rate := fun _ => none }

/-- Modelled from the spec: `check_course_creation_rate_limit`
(`course_rate_limit_utils.rs`, not in the source tree).  Spec §4.4: reads the
creator's counter record; if the current ledger time falls outside the configured
window, resets the counter and window start; increments the counter; fails with
`RateLimitExceeded` if the post-increment count exceeds the configured ceiling.
`window` and `ceiling` are the configured parameters, `now` the ledger time. -/
def check_course_creation_rate_limit (window ceiling now : Nat) (s : RegistryState)
    (creator : Addr) : Except Error RegistryState :=
  let r := (s.rate creator).getD { count := 0, window_start := now }
  let r1 := if r.window_start + window ≤ now then { count := 0, window_start := now } else r
  let r2 : RateRecord := { r1 with count := r1.count + 1 }
  if ceiling < r2.count then Except.error Error.RateLimitExceeded
  else Except.ok { s with rate := fun a => if a = creator then some r2 else s.rate a }

/-- `generate_course_id` (`create_course.rs` lines 102-112): read the `COURSE_ID`
counter defaulting to 0, increment (`u128` arithmetic), persist, return. -/
def generate_course_id (s : RegistryState) : Nat × RegistryState :=
  let current := s.course_counter.getD 0
  let new_id := (current + 1) % U128LIM
  (new_id, { s with course_counter := some new_id })

/-- `create_course` (`create_course.rs` lines 16-100).  `creator.require_auth()` is
the host signature check and is modelled as always passing (the host only delivers
authenticated calls).  The rate-limit check (line 30) precedes the input validations
(lines 33-64); then id allocation, the duplicate-id check, and the write.  String
length is Soroban byte length, modelled by `String.length`. -/
def create_course (window ceiling now : Nat) (s : RegistryState) (creator : Addr)
    (off_chain_ref_id content_hash : String) (price : Nat)
    (category language : Option String) (level : Option String)
    (duration_hours : Option Nat) : Except Error (Course × RegistryState) :=
  match check_course_creation_rate_limit window ceiling now s creator with
  | Except.error e => Except.error e
  | Except.ok s1 =>
    if off_chain_ref_id.isEmpty then Except.error Error.OffChainRefIdRequired
    else if content_hash.isEmpty then Except.error Error.ContentHashRequired
    else if price = 0 then Except.error Error.InvalidPrice
    else if (match category with
             | some cat => cat.isEmpty || decide (100 < cat.length)
             | none => false) then Except.error Error.EmptyCategory
    else if (match language with
             | some lang => lang.isEmpty || decide (50 < lang.length)
             | none => false) then Except.error Error.InvalidLanguageLength
    else if (match duration_hours with
             | some d => decide (d = 0) || decide (8760 < d)
             | none => false) then Except.error Error.InvalidDurationValue
    else
      let idAndState := generate_course_id s1
      let id := idAndState.1
      let s2 := idAndState.2
      let converted_id := u32cast id
      if (s2.courses converted_id).isSome then Except.error Error.DuplicateCourseId
      else
        let new_course : Course :=
          { id := converted_id
            off_chain_ref_id := off_chain_ref_id
            content_hash := content_hash
            creator := creator
            price := price
            category := category
            language := language
            published := false
            prerequisites := []
            is_archived := false
            level := level
            duration_hours := duration_hours }
        Except.ok (new_course,
          { s2 with courses := fun k => if k = converted_id then some new_course else s2.courses k })

/-- `schema::EditCourseParams` (fields from `edit_course.rs` lines 35-79 and the
tests). -/
structure EditCourseParams where
  new_content_hash : Option String
  new_off_chain_ref_id : Option String
  new_price : Option Nat
  new_category : Option (Option String)
  new_language : Option (Option String)
  new_published : Option Bool
  new_level : Option (Option String)
  new_duration_hours : Option (Option Nat)
  deriving Repr, DecidableEq

/-- The validation-free tail of `edit_course.rs` lines 58-79: in-place updates of
category, language, published, level and duration (each "Some(value) sets; None
leaves"; the inner `Option` can clear a field). -/
def edit_apply_fields (c : Course) (p : EditCourseParams) : Course :=
  let c1 := match p.new_category with | some cat => { c with category := cat } | none => c
  let c2 := match p.new_language with | some lang => { c1 with language := lang } | none => c1
  let c3 := match p.new_published with | some b => { c2 with published := b } | none => c2
  let c4 := match p.new_level with | some lvl => { c3 with level := lvl } | none => c3
  match p.new_duration_hours with
  | some d => { c4 with duration_hours := d }
  | none => c4

/-- The price update of `edit_course.rs` lines 50-56 (reject a zero new price), then
the remaining field updates. -/
def edit_apply_price (c : Course) (p : EditCourseParams) : Except Error Course :=
  match p.new_price with
  | some pr =>
    if pr = 0 then Except.error Error.InvalidPrice
    else Except.ok (edit_apply_fields { c with price := pr } p)
  | none => Except.ok (edit_apply_fields c p)

/-- The off-chain-ref-id update of `edit_course.rs` lines 42-48 (reject an empty
id), then the rest. -/
def edit_apply_ref (c : Course) (p : EditCourseParams) : Except Error Course :=
  match p.new_off_chain_ref_id with
  | some r =>
    if r.isEmpty then Except.error Error.OffChainRefIdRequired
    else edit_apply_price { c with off_chain_ref_id := r } p
  | none => edit_apply_price c p

/-- The field-by-field update of `edit_course.rs` lines 34-79, staged in source
order: content hash (lines 34-40), off-chain ref id, price, then the plain field
updates. -/
def edit_apply (c0 : Course) (p : EditCourseParams) : Except Error Course :=
  match p.new_content_hash with
  | some h =>
    if h.isEmpty then Except.error Error.ContentHashRequired
    else edit_apply_ref { c0 with content_hash := h } p
  | none => edit_apply_ref c0 p

/-- `edit_course` (`edit_course.rs` lines 13-89): load the course (the `expect`
panic on a missing course is `CourseNotFound`), reject any caller other than the
stored creator with `Unauthorized` (lines 29-32; no admin override in this
function), apply the updates, persist. -/
def edit_course (s : RegistryState) (creator : Addr) (course_id : Nat)
    (params : EditCourseParams) : Except Error (Course × RegistryState) :=
  match s.courses course_id with
  | none => Except.error Error.CourseNotFound
  | some course0 =>
    if creator = course0.creator then
      match edit_apply course0 params with
      | Except.error e => Except.error e
      | Except.ok c =>
        Except.ok (c,
          { s with courses := fun k => if k = course_id then some c else s.courses k })
    else Except.error Error.Unauthorized

/-- `course_registry_add_module` (`add_module.rs` lines 19-94).  The emptiness and
100-byte-length validations on `course_id` never fire on canonical decimal course ids
and are omitted by the numeric id model; `require_course_management_auth`
(`access_control.rs`, not in the source tree) is modelled from the spec §4.3 as
"caller is the course creator or the identity oracle's `is_admin` holds".
`ledger_seq` is the host's `u32` sequence number, `ledger_ts` its timestamp. -/
def course_registry_add_module (is_admin : Addr → Bool) (ledger_seq ledger_ts : Nat)
    (s : RegistryState) (caller : Addr) (course_id : Nat) (position : Nat)
    (content_hash : String) : Except Error (CourseModule × RegistryState) :=
  if content_hash.isEmpty then Except.error Error.ContentHashRequired
  else if 10000 < position then Except.error Error.InvalidModulePosition
  else match s.courses course_id with
  | none => Except.error Error.CourseIdNotExist
  | some course =>
    if caller = course.creator || is_admin caller then
      if s.pos_taken (course_id, position) then Except.error Error.DuplicateModulePosition
      else
        let module_id := (course_id, position, ledger_seq)
        let m : CourseModule :=
          { id := module_id
            course_id := course_id
            position := position
            content_hash := content_hash
            created_at := ledger_ts }
        Except.ok (m,
          { s with
            modules := fun k => if k = module_id then some m else s.modules k
            pos_taken := fun k => if k = (course_id, position) then true else s.pos_taken k })
    else Except.error Error.Unauthorized

/-- The inner probe of `list_modules.rs` lines 46-67: try candidate sequence numbers
counting up from `seq`, return the first stored module (the loop `break`s on the
first hit whatever its course), none after `fuel` tries (`fuel = 1000 - seq`
initially, for the `while seq < 1000` bound). -/
def lm_probe (s : RegistryState) (cid pos : Nat) : Nat → Nat → Option CourseModule
  | 0, _ => none
  | fuel + 1, seq =>
    match s.modules (cid, pos, seq) with
    | some m => some m
    | none => lm_probe s cid pos fuel (seq + 1)

/-- The outer position scan of `list_modules.rs` lines 32-73: positions from 0 while
`position ≤ MAX_LOOP_GUARD && empty_streak ≤ MAX_EMPTY_CHECKS`; a set marker resets
the streak and probes; a found module is kept only if its stored course id matches.
The position ceiling is encoded as fuel (`fuel = MAX_LOOP_GUARD + 1 - position`). -/
def lm_outer (s : RegistryState) (cid maxEmpty : Nat) :
    Nat → Nat → Nat → List CourseModule → List CourseModule
  | 0, _, _, acc => acc
  | fuel + 1, pos, streak, acc =>
    if maxEmpty < streak then acc
    else if s.pos_taken (cid, pos) then
      let acc1 := match lm_probe s cid pos 1000 0 with
        | some m => if m.course_id = cid then acc ++ [m] else acc
        | none => acc
      lm_outer s cid maxEmpty fuel (pos + 1) 0 acc1
    else lm_outer s cid maxEmpty fuel (pos + 1) (streak + 1) acc

/-- `list_modules` (`list_modules.rs` lines 18-76): the emptiness check on the course
id never fires on canonical decimal ids; then the course-existence check and the
bounded reconstruction scan. -/
def list_modules (loopGuard maxEmpty : Nat) (s : RegistryState) (cid : Nat) :
    Except Error (List CourseModule) :=
  if (s.courses cid).isNone then Except.error Error.CourseIdNotExist
  else Except.ok (lm_outer s cid maxEmpty (loopGuard + 1) 0 0 [])

/-- The scan loop of `get_courses_by_instructor.rs` lines 14-32: starting at id 1,
break at the first absent id; otherwise keep the instructor's non-archived courses;
stop once the incremented id exceeds `MAX_LOOP_GUARD` (encoded as fuel
`fuel = MAX_LOOP_GUARD - id`, checked after the body). -/
def gcbi_loop (store : Nat → Option Course) (instructor : Addr) :
    Nat → Nat → List Course → List Course
  | 0, id, acc =>
    match store (u32cast id) with
    | none => acc
    | some c => if c.creator == instructor && !c.is_archived then acc ++ [c] else acc
  | fuel + 1, id, acc =>
    match store (u32cast id) with
    | none => acc
    | some c =>
      gcbi_loop store instructor fuel (id + 1)
        (if c.creator == instructor && !c.is_archived then acc ++ [c] else acc)

/-- `get_courses_by_instructor` (`get_courses_by_instructor.rs` lines 10-35). -/
def get_courses_by_instructor (loopGuard : Nat) (store : Nat → Option Course)
    (instructor : Addr) : List Course :=
  gcbi_loop store instructor (loopGuard - 1) 1 []

/-- `UserProfile` of the course-access contract (`course_access/src/schema.rs`
lines 54-59). -/
structure UserProfile where
  user : Addr
  off_chain_ref_id : String
  deriving Repr, DecidableEq

/-- The persistent storage of the course-access contract restricted to
`DataKey::UserProfile` records. -/
structure AccessState where
  profiles : Addr → Option UserProfile

/-- `save_user_profile` (`course_access/src/functions/save_profile.rs` lines 21-42):
validate the off-chain ref id, then store `UserProfile { user, off_chain_ref_id }`
under `DataKey::UserProfile(user)`. -/
def save_user_profile_fn (s : AccessState) (off_chain_ref_id : String) (user : Addr) :
    Except Error AccessState :=
  if off_chain_ref_id.isEmpty then Except.error Error.OffChainRefIdRequired
  else
    Except.ok
      { profiles := fun a =>
          if a = user then some { user := user, off_chain_ref_id := off_chain_ref_id }
          else s.profiles a }

/-- The contract entry point `save_user_profile` (`course_access/src/lib.rs`
lines 179-185): it passes `env.current_contract_address()` — the contract's own
address, not the calling user — as the `user` argument. -/
def save_user_profile_entry (contractAddr : Addr) (s : AccessState)
    (off_chain_ref_id : String) : Except Error AccessState :=
  save_user_profile_fn s off_chain_ref_id contractAddr

/-! Concrete instances used by counterexamples and witnesses. -/

/-- The empty filter set (every predicate absent). -/
def trivialFilters : CourseFilters :=
  { min_price := none, max_price := none, category := none, level := none
    min_duration := none, max_duration := none }

/-- A published, non-archived course stored at identifier 7 behind six absent
identifiers. -/
def gapCourse7 : Course :=
  { id := 7, off_chain_ref_id := "r", content_hash := "h", creator := 5, price := 10
    category := none, language := none, published := true, prerequisites := []
    is_archived := false, level := none, duration_hours := none }

/-- A storage state whose only course sits at identifier 7. -/
def gapStore7 : Nat → Option Course := fun i => if i = 7 then some gapCourse7 else none

/-- A published, non-archived course stored at identifier 8 behind seven absent
identifiers. -/
def gapCourse8 : Course :=
  { id := 8, off_chain_ref_id := "r", content_hash := "h", creator := 5, price := 10
    category := none, language := none, published := true, prerequisites := []
    is_archived := false, level := none, duration_hours := none }

/-- A storage state whose only course sits at identifier 8. -/
def gapStore8 : Nat → Option Course := fun i => if i = 8 then some gapCourse8 else none

/-- A non-archived course of creator 5 stored at identifier 2 behind one absent
identifier. -/
def gapCourse2 : Course :=
  { id := 2, off_chain_ref_id := "r", content_hash := "h", creator := 5, price := 10
    category := none, language := none, published := true, prerequisites := []
    is_archived := false, level := none, duration_hours := none }

/-- A storage state whose only course sits at identifier 2. -/
def gapStore2 : Nat → Option Course := fun i => if i = 2 then some gapCourse2 else none

/-- A published course at identifier 1 of a two-course contiguous store. -/
def contigCourse1 : Course :=
  { id := 1, off_chain_ref_id := "r1", content_hash := "h1", creator := 5, price := 10
    category := none, language := none, published := true, prerequisites := []
    is_archived := false, level := none, duration_hours := none }

/-- An unpublished course at identifier 2 of a two-course contiguous store. -/
def contigCourse2 : Course :=
  { id := 2, off_chain_ref_id := "r2", content_hash := "h2", creator := 6, price := 20
    category := none, language := none, published := false, prerequisites := []
    is_archived := false, level := none, duration_hours := none }

/-- A contiguous storage state with exactly the identifiers 1 and 2. -/
def contigStore2 : Nat → Option Course := fun i =>
  if i = 1 then some contigCourse1 else if i = 2 then some contigCourse2 else none

/-- Edit parameters that change nothing. -/
def noEditParams : EditCourseParams :=
  { new_content_hash := none, new_off_chain_ref_id := none, new_price := none
    new_category := none, new_language := none, new_published := none
    new_level := none, new_duration_hours := none }

/-- A registry holding exactly one course, at identifier 1, created by address 5. -/
def oneCourseState : RegistryState :=
  { emptyRegistryState with courses := fun k => if k = 1 then some contigCourse1 else none }

/-- A registry whose creator 0 has already used up a rate-limit ceiling of 5 in the
current window. -/
def c6State : RegistryState :=
  { emptyRegistryState with
    rate := fun a => if a = 0 then some { count := 5, window_start := 0 } else none }

/-- A course-access storage with no profiles. -/
def emptyAccessState : AccessState := { profiles := fun _ => none }

/-- The course-access storage after one `save_user_profile` call with ref id "a" on a
contract deployed at address 3. -/
def profState1 : AccessState :=
  { profiles := fun a =>
      if a = 3 then some { user := 3, off_chain_ref_id := "a" }
      else emptyAccessState.profiles a }

/-- The course-access storage after a further `save_user_profile` call with
ref id "b". -/
def profState2 : AccessState :=
  { profiles := fun a =>
      if a = 3 then some { user := 3, off_chain_ref_id := "b" }
      else profState1.profiles a }

/-- The two mutating registry operations that touch stored `Course` records.  A
failed call leaves the state unchanged (spec §5: per-call transactionality). -/
inductive RegOp where
  | create (window ceiling now : Nat) (creator : Addr)
      (off_chain_ref_id content_hash : String) (price : Nat)
      (category language level : Option String) (duration_hours : Option Nat)
  | edit (creator : Addr) (course_id : Nat) (params : EditCourseParams)

/-- Apply one operation to the registry storage, committing its writes on success and
discarding everything on an abort. -/
def applyOp (s : RegistryState) : RegOp → RegistryState
  | RegOp.create w ceil now creator off hash price cat lang lvl dur =>
    match create_course w ceil now s creator off hash price cat lang lvl dur with
    | Except.ok p => p.2
    | Except.error _ => s
  | RegOp.edit creator cid params =>
    match edit_course s creator cid params with
    | Except.ok p => p.2
    | Except.error _ => s

/-- Every stored course record has a strictly positive price. -/
def coursePricesPositive (s : RegistryState) : Prop :=
  ∀ id c, s.courses id = some c → 0 < c.price

/-- Whether an `Except` result is a success. -/
def isOkE {ε α : Type} (r : Except ε α) : Bool :=
  match r with
  | Except.ok _ => true
  | Except.error _ => false

/-- A registry holding one course at identifier 1 (creator 5) and no modules. -/
def c4Start : RegistryState :=
  { emptyRegistryState with courses := fun k => if k = 1 then some contigCourse1 else none }

/-- The module written by `add_module` on `c4Start` at position 0, ledger sequence 7. -/
def c4Module : CourseModule :=
  { id := (1, 0, 7), course_id := 1, position := 0, content_hash := "h", created_at := 0 }

/-- The registry after that insertion. -/
def c4State1 : RegistryState :=
  { c4Start with
    modules := fun k => if k = (1, 0, 7) then some c4Module else c4Start.modules k
    pos_taken := fun k => if k = (1, 0) then true else c4Start.pos_taken k }

/-- The module written by `add_module` on `c4Start` at position 0, ledger sequence 3. -/
def c5Module : CourseModule :=
  { id := (1, 0, 3), course_id := 1, position := 0, content_hash := "h", created_at := 0 }

/-- The registry after that insertion. -/
def c5State1 : RegistryState :=
  { c4Start with
    modules := fun k => if k = (1, 0, 3) then some c5Module else c4Start.modules k
    pos_taken := fun k => if k = (1, 0) then true else c4Start.pos_taken k }

/-- The arguments of one `create_course` call: the host ledger time plus the course
fields (the rate-limit window and ceiling are configuration, not call data). -/
structure CreateReq where
  now : Nat
  creator : Addr
  off_chain_ref_id : String
  content_hash : String
  price : Nat
  category : Option String
  language : Option String
  level : Option String
  duration_hours : Option Nat

/-- Run a sequence of `create_course` calls, aborting on the first failure, and
collect the returned courses in call order. -/
def runCreates (window ceiling : Nat) :
    RegistryState → List CreateReq → Except Error (List Course × RegistryState)
  | s, [] => Except.ok ([], s)
  | s, r :: rs =>
    match create_course window ceiling r.now s r.creator r.off_chain_ref_id
        r.content_hash r.price r.category r.language r.level r.duration_hours with
    | Except.error e => Except.error e
    | Except.ok (c, s1) =>
      match runCreates window ceiling s1 rs with
      | Except.error e => Except.error e
      | Except.ok (cs, s2) => Except.ok (c :: cs, s2)

/-- A valid creation request by creator 4. -/
def c3Req : CreateReq :=
  { now := 0, creator := 4, off_chain_ref_id := "r", content_hash := "h", price := 1
    category := none, language := none, level := none, duration_hours := none }

/-- Two such creations run from the empty registry. -/
def c3wRun : Except Error (List Course × RegistryState) :=
  runCreates 10 5 emptyRegistryState [c3Req, c3Req]

/-- The courses returned by `c3wRun`. -/
def c3wCourses : List Course :=
  match c3wRun with
  | Except.ok p => p.1
  | Except.error _ => []

/-- The state after `c3wRun`. -/
def c3wState : RegistryState :=
  match c3wRun with
  | Except.ok p => p.2
  | Except.error _ => emptyRegistryState

/-- A valid creation request by creator 0 at ledger time 0, used to drive the
registry to the `u32` identifier wrap. -/
def cxReq : CreateReq :=
  { now := 0, creator := 4, off_chain_ref_id := "r", content_hash := "h", price := 1
    category := none, language := none, level := none, duration_hours := none }

/-- The course the `j`-th creation of the wrap run stores (its id string is the
decimal rendering of `j mod 2^32`). -/
def cxCourse (j : Nat) : Course :=
  { id := u32cast j, off_chain_ref_id := "r", content_hash := "h", creator := 4
    price := 1, category := none, language := none, published := false
    prerequisites := [], is_archived := false, level := none, duration_hours := none }

/-- The registry after `k` creations of the wrap run (`k < 2^32`): counter `k`,
courses at keys `1..k`, and creator 4's rate record at `k` uses in the window. -/
def cxState (k : Nat) : RegistryState :=
  { course_counter := if k = 0 then none else some k
    courses := fun j => if 1 ≤ j ∧ j ≤ k then some (cxCourse j) else none
    modules := fun _ => none
    pos_taken := fun _ => false
    rate := fun a =>
      if a = 4 ∧ k ≠ 0 then some { count := k, window_start := 0 } else none }

/-- The registry after the `2^32`-th creation of the wrap run. -/
def cxFinal : RegistryState :=
  match create_course 1 (U32LIM + 1) 0 (cxState (U32LIM - 1)) 4 "r" "h" 1
      none none none none with
  | Except.ok p => p.2
  | Except.error _ => emptyRegistryState

/-- The courses returned by the full wrap run of `2^32` creations. -/
def cxFullCourses : List Course :=
  (List.range' 1 (U32LIM - 1)).map cxCourse ++ [cxCourse U32LIM]

/-!  Theorems.  First the loop lemmas for the paginated filter scanner. -/

/-- If every identifier a scan segment can touch is absent, the filter-scan loop
returns its accumulator unchanged (it runs out of fuel or of empty-streak budget). -/
theorem lcwf_loop_all_absent (store : Nat → Option Course) (f : CourseFilters)
    (offv maxLimit maxEmpty : Nat) :
    ∀ (fuel id cnt m e : Nat) (acc : List Course),
      (∀ j, id ≤ j → j < id + fuel → store (u32cast j) = none) →
      lcwf_loop store f offv maxLimit maxEmpty fuel id cnt m e acc = acc := by
  intro fuel
  induction fuel with
  | zero => intro id cnt m e acc _; rfl
  | succ fuel ih =>
    intro id cnt m e acc h
    have h0 : store (u32cast id) = none := h id le_rfl (by omega)
    simp only [lcwf_loop, h0]
    by_cases he : maxEmpty < e
    · simp [he]
    · simp only [if_neg he]
      exact ih (id + 1) cnt m (e + 1) acc (fun j h1 h2 => h j (by omega) (by omega))

/-- Loop invariant of the filter scan on a contiguous store: starting at `id` with
`cnt` results already taken and `m` matches already seen, the loop appends the
remaining matches after dropping the residual offset and taking the residual page
budget. -/
theorem lcwf_loop_contig (store : Nat → Option Course) (f : CourseFilters)
    (offv maxLimit maxEmpty maxScanId n : Nat)
    (hcont : contiguous store n) (hn : n ≤ maxScanId) (hscan : maxScanId < U32LIM) :
    ∀ (fuel id cnt m : Nat) (acc : List Course),
      id + fuel = maxScanId + 1 → 1 ≤ id → cnt ≤ maxLimit →
      lcwf_loop store f offv maxLimit maxEmpty fuel id cnt m 0 acc
        = acc ++ (((scanCourses store id (n + 1 - id)).filter (visible f)).drop
            (offv - m)).take (maxLimit - cnt) := by
  intro fuel
  induction fuel with
  | zero =>
    intro id cnt m acc hfuel hid hcnt
    have hlen : n + 1 - id = 0 := by omega
    simp [lcwf_loop, hlen, scanCourses]
  | succ fuel ih =>
    intro id cnt m acc hfuel hid hcnt
    by_cases hin : id ≤ n
    · -- inside the contiguous region: the identifier is present
      obtain ⟨c, hc⟩ : ∃ c, store id = some c :=
        Option.isSome_iff_exists.mp ((hcont id).mpr ⟨hid, hin⟩)
      have hcast : u32cast id = id := Nat.mod_eq_of_lt (by omega)
      have hlen : n + 1 - id = (n - id) + 1 := by omega
      have hscanC : scanCourses store id (n + 1 - id)
          = c :: scanCourses store (id + 1) (n + 1 - (id + 1)) := by
        rw [hlen]
        have e : n - id = n + 1 - (id + 1) := by omega
        simp only [scanCourses, hc, e]
      simp only [lcwf_loop, hcast, hc, Nat.not_lt_zero, if_false]
      rw [hscanC]
      by_cases harch : (c.is_archived || !c.published) = true
      · have hvis : visible f c = false := by
          unfold visible
          revert harch
          cases c.is_archived <;> cases c.published <;> simp
        simp only [harch, if_true]
        rw [ih (id + 1) cnt m acc (by omega) (by omega) hcnt]
        simp [List.filter, hvis]
      · simp only [harch, if_false]
        have harchA : c.is_archived = false := by
          revert harch; cases c.is_archived <;> simp
        have harchP : c.published = true := by
          revert harch; cases c.is_archived <;> cases c.published <;> simp
        by_cases hpass : passes_filters f c = true
        · have hvis : visible f c = true := by
            simp [visible, harchA, harchP, hpass]
          simp only [hpass, if_true]
          by_cases hoff : offv ≤ m
          · simp only [if_pos hoff]
            by_cases hlt : cnt < maxLimit
            · simp only [if_pos hlt]
              rw [ih (id + 1) (cnt + 1) (m + 1) (acc ++ [c]) (by omega) (by omega) (by omega)]
              have e1 : offv - m = 0 := by omega
              have e2 : offv - (m + 1) = 0 := by omega
              have e3 : maxLimit - cnt = (maxLimit - (cnt + 1)) + 1 := by omega
              simp [List.filter, hvis, e1, e2, e3]
            · have hcnt' : cnt = maxLimit := by omega
              have e3 : maxLimit - cnt = 0 := by omega
              simp [hlt, e3]
          · simp only [if_neg hoff]
            rw [ih (id + 1) cnt (m + 1) acc (by omega) (by omega) hcnt]
            have e1 : offv - m = (offv - (m + 1)) + 1 := by omega
            simp [List.filter, hvis, e1]
        · have hvis : visible f c = false := by simp [visible, harchA, harchP, hpass]
          simp only [hpass, if_false]
          rw [ih (id + 1) cnt m acc (by omega) (by omega) hcnt]
          simp [List.filter, hvis]
    · -- beyond the contiguous region: every remaining identifier is absent
      have habs : ∀ j, id ≤ j → j < id + (fuel + 1) → store (u32cast j) = none := by
        intro j h1 h2
        have hj : u32cast j = j % U32LIM := rfl
        have hjlt : j < U32LIM ∨ j = U32LIM := by unfold U32LIM at *; omega
        have hnone : ∀ x, ¬ (1 ≤ x ∧ x ≤ n) → store x = none := by
          intro x hx
          rcases h : store x with _ | c
          · rfl
          · exact absurd ((hcont x).mp (by simp [h])) hx
        rcases hjlt with hjlt | hjeq
        · rw [show u32cast j = j from Nat.mod_eq_of_lt hjlt]
          exact hnone j (by omega)
        · rw [show u32cast j = 0 by unfold u32cast; rw [hjeq]; simp]
          exact hnone 0 (by omega)
      rw [lcwf_loop_all_absent store f offv maxLimit maxEmpty (fuel + 1) id cnt m 0 acc habs]
      have hlen : n + 1 - id = 0 := by omega
      simp [hlen, scanCourses]

/-- Membership in a consecutive-identifier scan. -/
theorem mem_scanCourses (store : Nat → Option Course) (c : Course) :
    ∀ (len start : Nat), c ∈ scanCourses store start len ↔
      ∃ id, start ≤ id ∧ id < start + len ∧ store id = some c := by
  intro len
  induction len with
  | zero =>
    intro start
    simp only [scanCourses, List.not_mem_nil, false_iff]
    rintro ⟨id, h1, h2, _⟩
    omega
  | succ len ih =>
    intro start
    rcases h : store start with _ | c'
    · simp only [scanCourses, h]
      rw [ih (start + 1)]
      constructor
      · rintro ⟨id, h1, h2, h3⟩
        exact ⟨id, by omega, by omega, h3⟩
      · rintro ⟨id, h1, h2, h3⟩
        have hne : id ≠ start := by
          rintro rfl
          rw [h] at h3
          exact Option.noConfusion h3
        exact ⟨id, by omega, by omega, h3⟩
    · simp only [scanCourses, h, List.mem_cons]
      rw [ih (start + 1)]
      constructor
      · rintro (rfl | ⟨id, h1, h2, h3⟩)
        · exact ⟨start, le_rfl, by omega, h⟩
        · exact ⟨id, by omega, by omega, h3⟩
      · rintro ⟨id, h1, h2, h3⟩
        by_cases hid : id = start
        · left
          rw [hid] at h3
          rw [h] at h3
          exact (Option.some_inj.mp h3).symm
        · right
          exact ⟨id, by omega, by omega, h3⟩

/-- The internal cap of the effective page size at 20. -/
theorem if_cap_eq_min (v : Nat) : (if 20 < v then 20 else v) = min v 20 := by
  split <;> omega

/-- On a contiguous store, a validly-paginated call to the filter scanner returns the
offset/limit window of the ordered match sequence. -/
theorem lcwf_ok (maxScanId maxEmpty n : Nat) (store : Nat → Option Course)
    (f : CourseFilters) (limit offset : Option Nat)
    (hcont : contiguous store n) (hn : n ≤ maxScanId) (hscan : maxScanId < U32LIM)
    (hbl : (match limit with | some l => decide (100 < l) | none => false) = false)
    (hbo : (match offset with | some o => decide (10000 < o) | none => false) = false) :
    list_courses_with_filters maxScanId maxEmpty store f limit offset
      = Except.ok (((matchSeq store f n).drop (offset.getD 0)).take
          (min (limit.getD 10) 20)) := by
  unfold list_courses_with_filters
  rw [hbl, hbo]
  simp only [Bool.false_eq_true, if_false]
  rw [if_cap_eq_min]
  rw [lcwf_loop_contig store f (offset.getD 0) (min (limit.getD 10) 20) maxEmpty maxScanId n
    hcont hn hscan maxScanId 1 0 0 [] (by omega) le_rfl (by omega)]
  have e : n + 1 - 1 = n := by omega
  simp [matchSeq, e]

/-- The two-course store `contigStore2` holds exactly the identifiers 1 and 2. -/
theorem contigStore2_contiguous : contiguous contigStore2 2 := by
  intro id
  by_cases h1 : id = 1
  · simp [contigStore2, h1]
  · by_cases h2 : id = 2
    · simp [contigStore2, h1, h2]
    · simp only [contigStore2, h1, h2, if_false, Option.isSome_none]
      constructor
      · intro h
        exact absurd h (by simp)
      · intro h
        omega

/-- C1 (amended).  On a storage state whose course identifiers form the contiguous
range `1..n` produced by `create_course`, with `n` within the scan ceiling, a call to
`list_courses_with_filters` with no offset, a valid limit and an effective page size
(`min(limit, 20)`, default limit 10) at least the number of matches returns exactly
the match sequence, and a course appears in it if and only if it is stored, published,
not archived, and satisfies every supplied predicate (price within `[min_price,
max_price]`, category and level equal to their filters when set, duration within
`[min_duration, max_duration]` with an absent duration failing any duration filter).
On stores with gaps beyond the empty-check ceiling or identifiers beyond the scan
ceiling the equivalence fails (see the counterexample). -/
theorem c1_filter_membership (maxScanId maxEmpty n : Nat) (store : Nat → Option Course)
    (f : CourseFilters) (limit : Option Nat) (c : Course)
    (hcont : contiguous store n) (hn : n ≤ maxScanId) (hscan : maxScanId < U32LIM)
    (hlim : (match limit with | some l => decide (100 < l) | none => false) = false)
    (hbig : (matchSeq store f n).length ≤ min (limit.getD 10) 20) :
    list_courses_with_filters maxScanId maxEmpty store f limit none
        = Except.ok (matchSeq store f n)
      ∧ (c ∈ matchSeq store f n ↔
          ∃ id, store id = some c ∧ c.published = true ∧ c.is_archived = false
            ∧ passes_filters f c = true) := by
  constructor
  · rw [lcwf_ok maxScanId maxEmpty n store f limit none hcont hn hscan hlim rfl]
    simp [List.take_of_length_le hbig]
  · rw [matchSeq, List.mem_filter, mem_scanCourses]
    constructor
    · rintro ⟨⟨id, h1, h2, h3⟩, hvis⟩
      rw [visible] at hvis
      simp only [Bool.and_eq_true, Bool.not_eq_eq_eq_not, Bool.not_true] at hvis
      exact ⟨id, h3, hvis.1.2, hvis.1.1, hvis.2⟩
    · rintro ⟨id, h3, hpub, harch, hpass⟩
      have hid : 1 ≤ id ∧ id ≤ n := (hcont id).mp (by simp [h3])
      exact ⟨⟨id, hid.1, by omega, h3⟩, by simp [visible, hpub, harch, hpass]⟩

/-- Witness for C1 at a concrete two-course store, empty filters, no limit. -/
theorem c1_filter_membership_witness :
    list_courses_with_filters 100 5 contigStore2 trivialFilters none none
        = Except.ok (matchSeq contigStore2 trivialFilters 2)
      ∧ (contigCourse1 ∈ matchSeq contigStore2 trivialFilters 2 ↔
          ∃ id, contigStore2 id = some contigCourse1 ∧ contigCourse1.published = true
            ∧ contigCourse1.is_archived = false
            ∧ passes_filters trivialFilters contigCourse1 = true) :=
  c1_filter_membership 100 5 2 contigStore2 trivialFilters none contigCourse1
    contigStore2_contiguous (by decide) (by decide) (by decide) (by decide)

/-- C1 as stated is false: a storage state whose only course sits at identifier 7
behind six absent identifiers.  With empty-check ceiling 5 the scan abandons before
reaching it, so the published, non-archived course that passes the (empty) filter set
never appears in the output. -/
theorem c1_counterexample :
    list_courses_with_filters 100 5 gapStore7 trivialFilters none none
        = Except.ok []
      ∧ gapStore7 7 = some gapCourse7
      ∧ gapCourse7.published = true
      ∧ gapCourse7.is_archived = false
      ∧ passes_filters trivialFilters gapCourse7 = true := by decide

/-- C2 (amended).  On a contiguous store `1..n` within the scan ceiling, a call with
`offset = k ≤ 10000` and `limit = nl ≤ 100` returns the `(k+1)`-th through
`(k + min(nl,20))`-th matching courses in increasing-identifier order (the effective
page size is capped at 20), and when `k` is at least the number of matches it returns
the empty sequence as a valid non-error result. -/
theorem c2_pagination (maxScanId maxEmpty n k nl : Nat) (store : Nat → Option Course)
    (f : CourseFilters)
    (hcont : contiguous store n) (hn : n ≤ maxScanId) (hscan : maxScanId < U32LIM)
    (hk : k ≤ 10000) (hnl : nl ≤ 100) :
    list_courses_with_filters maxScanId maxEmpty store f (some nl) (some k)
        = Except.ok (((matchSeq store f n).drop k).take (min nl 20))
      ∧ ((matchSeq store f n).length ≤ k →
          list_courses_with_filters maxScanId maxEmpty store f (some nl) (some k)
            = Except.ok []) := by
  have hmain := lcwf_ok maxScanId maxEmpty n store f (some nl) (some k) hcont hn hscan
    (by simpa using decide_eq_false (by omega : ¬ 100 < nl))
    (by simpa using decide_eq_false (by omega : ¬ 10000 < k))
  refine ⟨hmain, fun hlen => ?_⟩
  rw [hmain]
  rw [List.drop_eq_nil_of_le (by simpa using hlen)]
  simp

/-- Witness for C2 at a concrete two-course store, offset 1, limit 1. -/
theorem c2_pagination_witness :
    list_courses_with_filters 100 5 contigStore2 trivialFilters (some 1) (some 1)
        = Except.ok (((matchSeq contigStore2 trivialFilters 2).drop 1).take (min 1 20))
      ∧ ((matchSeq contigStore2 trivialFilters 2).length ≤ 1 →
          list_courses_with_filters 100 5 contigStore2 trivialFilters (some 1) (some 1)
            = Except.ok []) :=
  c2_pagination 100 5 2 1 1 contigStore2 trivialFilters contigStore2_contiguous
    (by decide) (by decide) (by decide) (by decide)

/-- C2 as stated is false: a storage state with exactly one matching course (at
identifier 8, behind seven absent identifiers).  With offset 0 and limit 10 the claim
demands the first matching course; the scan abandons at empty-check ceiling 5 and
returns the empty sequence instead. -/
theorem c2_counterexample :
    list_courses_with_filters 100 5 gapStore8 trivialFilters (some 10) (some 0)
        = Except.ok []
      ∧ gapStore8 8 = some gapCourse8
      ∧ visible trivialFilters gapCourse8 = true := by decide

/-- Loop invariant of the instructor scan on a contiguous store: the loop appends
the instructor's non-archived courses among the identifiers from `id` to `n`. -/
theorem gcbi_loop_contig (store : Nat → Option Course) (instructor : Addr)
    (n guard : Nat) (hcont : contiguous store n) (hn : n ≤ guard) (hg : guard < U32LIM) :
    ∀ (fuel id : Nat) (acc : List Course),
      id + fuel = guard → 1 ≤ id →
      gcbi_loop store instructor fuel id acc
        = acc ++ (scanCourses store id (n + 1 - id)).filter
            (fun c => c.creator == instructor && !c.is_archived) := by
  intro fuel
  induction fuel with
  | zero =>
    intro id acc hfuel hid
    have hcast : u32cast id = id := Nat.mod_eq_of_lt (by omega)
    by_cases hin : id ≤ n
    · have hidn : id = n := by omega
      obtain ⟨c, hc⟩ : ∃ c, store id = some c :=
        Option.isSome_iff_exists.mp ((hcont id).mpr ⟨hid, hin⟩)
      have hlen : n + 1 - id = 1 := by omega
      simp only [gcbi_loop, hcast, hc, hlen, scanCourses, List.filter]
      cases hpred : (c.creator == instructor && !c.is_archived) <;> simp [hpred]
    · have hc : store id = none := by
        rcases h : store id with _ | c
        · rfl
        · exact absurd ((hcont id).mp (by simp [h])) (by omega)
      have hlen : n + 1 - id = 0 := by omega
      simp [gcbi_loop, hcast, hc, hlen, scanCourses]
  | succ fuel ih =>
    intro id acc hfuel hid
    have hcast : u32cast id = id := Nat.mod_eq_of_lt (by omega)
    by_cases hin : id ≤ n
    · obtain ⟨c, hc⟩ : ∃ c, store id = some c :=
        Option.isSome_iff_exists.mp ((hcont id).mpr ⟨hid, hin⟩)
      have hlen : n + 1 - id = (n + 1 - (id + 1)) + 1 := by omega
      rw [hlen]
      simp only [gcbi_loop, hcast, hc, scanCourses, List.filter]
      rw [ih (id + 1) _ (by omega) (by omega)]
      cases hpred : (c.creator == instructor && !c.is_archived) <;> simp [hpred]
    · have hc : store id = none := by
        rcases h : store id with _ | c
        · rfl
        · exact absurd ((hcont id).mp (by simp [h])) (by omega)
      have hlen : n + 1 - id = 0 := by omega
      simp [gcbi_loop, hcast, hc, hlen, scanCourses]

/-- C9 (amended).  On a storage state whose course identifiers form the contiguous
range `1..n` (the shape `create_course` produces; the source loop stops at the first
absent identifier, so it has no empty-streak tolerance), with `n` within the hard
loop ceiling, `get_courses_by_instructor` returns, in increasing-identifier order,
exactly the stored courses whose creator is the instructor and which are not
archived. -/
theorem c9_instructor_scan (guard n : Nat) (store : Nat → Option Course)
    (instructor : Addr) (c : Course)
    (hcont : contiguous store n) (hn : n ≤ guard) (hg : guard < U32LIM)
    (hg1 : 1 ≤ guard) :
    get_courses_by_instructor guard store instructor
        = (scanCourses store 1 n).filter (fun c => c.creator == instructor && !c.is_archived)
      ∧ (c ∈ get_courses_by_instructor guard store instructor ↔
          ∃ id, store id = some c ∧ c.creator = instructor ∧ c.is_archived = false) := by
  have hmain : get_courses_by_instructor guard store instructor
      = (scanCourses store 1 n).filter (fun c => c.creator == instructor && !c.is_archived) := by
    unfold get_courses_by_instructor
    rw [gcbi_loop_contig store instructor n guard hcont hn hg (guard - 1) 1 [] (by omega)
      le_rfl]
    have e : n + 1 - 1 = n := by omega
    rw [List.nil_append, e]
  refine ⟨hmain, ?_⟩
  rw [hmain, List.mem_filter, mem_scanCourses]
  constructor
  · rintro ⟨⟨id, h1, h2, h3⟩, hpred⟩
    simp only [Bool.and_eq_true, beq_iff_eq, Bool.not_eq_eq_eq_not, Bool.not_true] at hpred
    exact ⟨id, h3, hpred.1, hpred.2⟩
  · rintro ⟨id, h3, hcr, har⟩
    have hid : 1 ≤ id ∧ id ≤ n := (hcont id).mp (by simp [h3])
    exact ⟨⟨id, hid.1, by omega, h3⟩, by simp [hcr, har]⟩

/-- Witness for C9 at a concrete two-course store and instructor 5. -/
theorem c9_instructor_scan_witness :
    get_courses_by_instructor 100 contigStore2 5
        = (scanCourses contigStore2 1 2).filter (fun c => c.creator == 5 && !c.is_archived)
      ∧ (contigCourse1 ∈ get_courses_by_instructor 100 contigStore2 5 ↔
          ∃ id, contigStore2 id = some contigCourse1 ∧ contigCourse1.creator = 5
            ∧ contigCourse1.is_archived = false) :=
  c9_instructor_scan 100 2 contigStore2 5 contigCourse1 contigStore2_contiguous
    (by decide) (by decide) (by decide)

/-- C9 as stated is false: the scan of `get_courses_by_instructor` breaks at the
first absent identifier instead of tolerating gaps up to the empty-check streak
ceiling.  A non-archived course of instructor 5 stored at identifier 2 behind the
single absent identifier 1 is never returned. -/
theorem c9_counterexample :
    get_courses_by_instructor 100 gapStore2 5 = []
      ∧ gapStore2 2 = some gapCourse2
      ∧ gapCourse2.creator = 5
      ∧ gapCourse2.is_archived = false := by decide

/-- C7.  A caller who is neither the stored course's creator nor an admin gets
`Unauthorized` from `edit_course` and the storage is untouched (the failed call
commits nothing, rendered as `applyOp` leaving the state unchanged).  The source
checks only `creator != course.creator` — it never consults the admin oracle — so
the `is_admin` hypothesis merely mirrors the claim's wording. -/
theorem c7_edit_unauthorized (s : RegistryState) (is_admin : Addr → Bool)
    (caller : Addr) (cid : Nat) (params : EditCourseParams) (c0 : Course)
    (hstored : s.courses cid = some c0)
    (hnotcreator : caller ≠ c0.creator)
    (_hnotadmin : is_admin caller = false) :
    edit_course s caller cid params = Except.error Error.Unauthorized
      ∧ applyOp s (RegOp.edit caller cid params) = s := by
  have herr : edit_course s caller cid params = Except.error Error.Unauthorized := by
    unfold edit_course
    rw [hstored]
    simp [hnotcreator]
  refine ⟨herr, ?_⟩
  simp only [applyOp, herr]

/-- Witness for C7: caller 9 is neither the creator (5) of the stored course nor an
admin of the all-false oracle. -/
theorem c7_edit_unauthorized_witness :
    edit_course oneCourseState 9 1 noEditParams = Except.error Error.Unauthorized
      ∧ applyOp oneCourseState (RegOp.edit 9 1 noEditParams) = oneCourseState :=
  c7_edit_unauthorized oneCourseState (fun _ => false) 9 1 noEditParams contigCourse1
    (by decide) (by decide) rfl

/-- C10.  The course-access entry point `save_user_profile` passes the contract's own
address as the profile owner: after any successful call the record is keyed by the
contract address and its `user` field equals that address, and a second call (any
caller, different ref id) overwrites the same single record, leaving every other key
untouched. -/
theorem c10_profile_keyed_by_contract (ca : Addr) (s : AccessState) (off1 off2 : String)
    (s1 s2 : AccessState)
    (h1 : save_user_profile_entry ca s off1 = Except.ok s1)
    (h2 : save_user_profile_entry ca s1 off2 = Except.ok s2) :
    s1.profiles ca = some { user := ca, off_chain_ref_id := off1 }
      ∧ s2.profiles ca = some { user := ca, off_chain_ref_id := off2 }
      ∧ ∀ a, a ≠ ca → s2.profiles a = s.profiles a := by
  unfold save_user_profile_entry save_user_profile_fn at h1 h2
  split at h1
  · exact absurd h1 (by simp)
  rw [Except.ok.injEq] at h1
  split at h2
  · exact absurd h2 (by simp)
  rw [Except.ok.injEq] at h2
  subst h1
  subst h2
  refine ⟨by simp, by simp, ?_⟩
  intro a ha
  simp [ha]

/-- Witness for C10: two successive saves on a contract at address 3. -/
theorem c10_profile_keyed_by_contract_witness :
    profState1.profiles 3 = some { user := 3, off_chain_ref_id := "a" }
      ∧ profState2.profiles 3 = some { user := 3, off_chain_ref_id := "b" }
      ∧ ∀ a, a ≠ 3 → profState2.profiles a = emptyAccessState.profiles a :=
  c10_profile_keyed_by_contract 3 emptyAccessState "a" "b" profState1 profState2 rfl rfl

/-- C6 (amended).  In `create_course` the rate-limit check runs before input
validation (line 30 before lines 33-64): a call with invalid inputs (zero price)
whose creator is over the rate-limit ceiling aborts with `RateLimitExceeded`, not
with the validation error.  An aborted call persists nothing (the host discards the
writes of a failed call). -/
theorem c6_rate_limit_before_validation (w ceil now : Nat) (s : RegistryState)
    (creator : Addr) (off hash : String) (price : Nat) (cat lang lvl : Option String)
    (dur : Option Nat)
    (hrl : check_course_creation_rate_limit w ceil now s creator
      = Except.error Error.RateLimitExceeded)
    (_hprice : price = 0) :
    create_course w ceil now s creator off hash price cat lang lvl dur
      = Except.error Error.RateLimitExceeded := by
  unfold create_course
  rw [hrl]

/-- Witness for C6: creator 0 has exhausted ceiling 5 inside the window, and the call
also carries the invalid price 0; it aborts with the rate-limit error. -/
theorem c6_rate_limit_before_validation_witness :
    create_course 10 5 0 c6State 0 "r" "h" 0 none none none none
      = Except.error Error.RateLimitExceeded :=
  c6_rate_limit_before_validation 10 5 0 c6State 0 "r" "h" 0 none none none none rfl rfl

/-- C6 as stated is false: with inputs that are invalid (price 0) and a creator over
the rate-limit ceiling, the call aborts with `RateLimitExceeded` — the rate-limit
record is read and incremented before any validation runs — whereas validation-first
ordering would abort with `InvalidPrice`. -/
theorem c6_counterexample :
    create_course 10 5 0 c6State 0 "r" "h" 0 none none none none
        = Except.error Error.RateLimitExceeded
      ∧ Error.RateLimitExceeded ≠ Error.InvalidPrice := by
  constructor
  · rfl
  · decide

/-- A passing rate-limit check touches only the rate records. -/
theorem check_rate_ok_elim (w ceil now : Nat) (s : RegistryState) (creator : Addr)
    (srate : RegistryState)
    (hok : check_course_creation_rate_limit w ceil now s creator = Except.ok srate) :
    srate.courses = s.courses ∧ srate.course_counter = s.course_counter
      ∧ srate.modules = s.modules ∧ srate.pos_taken = s.pos_taken := by
  simp only [check_course_creation_rate_limit] at hok
  split at hok <;> split at hok <;>
    first
    | (rw [Except.ok.injEq] at hok
       subst hok
       exact ⟨rfl, rfl, rfl, rfl⟩)
    | exact absurd hok (by simp)

/-- Successful course creation decomposed: the rate limiter passed (touching only
the rate records), the price is non-zero, the allocated key was free, and the
returned course and state have exactly the shapes the source writes. -/
theorem create_course_ok_elim (w ceil now : Nat) (s : RegistryState) (creator : Addr)
    (off hash : String) (price : Nat) (cat lang lvl : Option String) (dur : Option Nat)
    (c : Course) (s1 : RegistryState)
    (hok : create_course w ceil now s creator off hash price cat lang lvl dur
      = Except.ok (c, s1)) :
    ∃ srate, check_course_creation_rate_limit w ceil now s creator = Except.ok srate
      ∧ price ≠ 0
      ∧ (srate.courses (u32cast ((srate.course_counter.getD 0 + 1) % U128LIM))).isSome
          = false
      ∧ c = { id := u32cast ((srate.course_counter.getD 0 + 1) % U128LIM)
              off_chain_ref_id := off, content_hash := hash, creator := creator
              price := price, category := cat, language := lang, published := false
              prerequisites := [], is_archived := false, level := lvl
              duration_hours := dur }
      ∧ s1 = { srate with
               course_counter := some ((srate.course_counter.getD 0 + 1) % U128LIM)
               courses := fun k =>
                 if k = u32cast ((srate.course_counter.getD 0 + 1) % U128LIM) then some c
                 else srate.courses k } := by
  rcases hrate : check_course_creation_rate_limit w ceil now s creator with e | srate
  · unfold create_course at hok
    rw [hrate] at hok
    exact absurd hok (by simp)
  · unfold create_course at hok
    rw [hrate] at hok
    simp only [generate_course_id] at hok
    split at hok
    · exact absurd hok (by simp)
    split at hok
    · exact absurd hok (by simp)
    split at hok
    · exact absurd hok (by simp)
    rename_i hprice
    split at hok
    · exact absurd hok (by simp)
    split at hok
    · exact absurd hok (by simp)
    split at hok
    · exact absurd hok (by simp)
    split at hok
    · exact absurd hok (by simp)
    rename_i hdup
    rw [Except.ok.injEq, Prod.mk.injEq] at hok
    obtain ⟨hc, hs⟩ := hok
    subst hc
    exact ⟨srate, rfl, hprice, by simpa using hdup, rfl, hs.symm⟩

/-- A successful `create_course` preserves the positive-price invariant: the stored
record's price is the validated argument, and all other keys are untouched. -/
theorem create_course_preserves_prices (w ceil now : Nat) (s : RegistryState)
    (creator : Addr) (off hash : String) (price : Nat) (cat lang lvl : Option String)
    (dur : Option Nat) (c : Course) (s1 : RegistryState)
    (hok : create_course w ceil now s creator off hash price cat lang lvl dur
      = Except.ok (c, s1))
    (hpos : coursePricesPositive s) : coursePricesPositive s1 := by
  obtain ⟨srate, hrate, hprice, _, hc, hs⟩ :=
    create_course_ok_elim w ceil now s creator off hash price cat lang lvl dur c s1 hok
  obtain ⟨hcourses, _, _, _⟩ := check_rate_ok_elim w ceil now s creator srate hrate
  intro id c' hid
  rw [hs] at hid
  dsimp only at hid
  by_cases hkey : id = u32cast ((srate.course_counter.getD 0 + 1) % U128LIM)
  · rw [if_pos hkey] at hid
    rw [Option.some_inj] at hid
    rw [← hid, hc]
    simpa using Nat.pos_of_ne_zero hprice
  · rw [if_neg hkey] at hid
    rw [hcourses] at hid
    exact hpos id c' hid

/-- The validation-free field updates do not change the price. -/
theorem edit_apply_fields_price (c : Course) (p : EditCourseParams) :
    (edit_apply_fields c p).price = c.price := by
  unfold edit_apply_fields
  rcases p.new_category with _ | cat <;> rcases p.new_language with _ | lang <;>
    rcases p.new_published with _ | b <;> rcases p.new_level with _ | lvl <;>
    rcases p.new_duration_hours with _ | d <;> rfl

/-- A successful staged price update yields a positive price. -/
theorem edit_apply_price_pos (c : Course) (p : EditCourseParams) (c' : Course)
    (hok : edit_apply_price c p = Except.ok c') (hpos : 0 < c.price) : 0 < c'.price := by
  unfold edit_apply_price at hok
  split at hok
  · rename_i pr hpr
    split at hok
    · exact absurd hok (by simp)
    · rename_i hpr0
      rw [Except.ok.injEq] at hok
      rw [← hok, edit_apply_fields_price]
      simpa using Nat.pos_of_ne_zero hpr0
  · rw [Except.ok.injEq] at hok
    rw [← hok, edit_apply_fields_price]
    exact hpos

/-- A successful ref-id stage yields a positive price. -/
theorem edit_apply_ref_pos (c : Course) (p : EditCourseParams) (c' : Course)
    (hok : edit_apply_ref c p = Except.ok c') (hpos : 0 < c.price) : 0 < c'.price := by
  unfold edit_apply_ref at hok
  split at hok
  · rename_i r hr
    split at hok
    · exact absurd hok (by simp)
    · exact edit_apply_price_pos _ p c' hok hpos
  · exact edit_apply_price_pos _ p c' hok hpos

/-- A successful `edit_apply` on a positively-priced course yields a positively
priced course. -/
theorem edit_apply_pos (c0 : Course) (p : EditCourseParams) (c : Course)
    (hok : edit_apply c0 p = Except.ok c) (hpos : 0 < c0.price) : 0 < c.price := by
  unfold edit_apply at hok
  split at hok
  · rename_i h hh
    split at hok
    · exact absurd hok (by simp)
    · exact edit_apply_ref_pos _ p c hok hpos
  · exact edit_apply_ref_pos _ p c hok hpos

/-- A successful `edit_course` preserves the positive-price invariant. -/
theorem edit_course_preserves_prices (s : RegistryState) (creator : Addr) (cid : Nat)
    (params : EditCourseParams) (c : Course) (s1 : RegistryState)
    (hok : edit_course s creator cid params = Except.ok (c, s1))
    (hpos : coursePricesPositive s) : coursePricesPositive s1 := by
  unfold edit_course at hok
  rcases h0 : s.courses cid with _ | c0
  · rw [h0] at hok
    exact absurd hok (by simp)
  · rw [h0] at hok
    dsimp only at hok
    split at hok
    · rcases happ : edit_apply c0 params with e | c'
      · rw [happ] at hok
        exact absurd hok (by simp)
      · rw [happ] at hok
        rw [Except.ok.injEq, Prod.mk.injEq] at hok
        obtain ⟨hc, hs⟩ := hok
        intro id cx hid
        rw [← hs] at hid
        dsimp only at hid
        by_cases hkey : id = cid
        · rw [if_pos hkey] at hid
          rw [Option.some_inj] at hid
          rw [← hid]
          exact edit_apply_pos c0 params c' happ (hpos cid c0 h0)
        · rw [if_neg hkey] at hid
          exact hpos id cx hid
    · exact absurd hok (by simp)

/-- Every single operation preserves the positive-price invariant (a failed call
leaves the state untouched). -/
theorem applyOp_preserves_prices (s : RegistryState) (op : RegOp)
    (hpos : coursePricesPositive s) : coursePricesPositive (applyOp s op) := by
  cases op with
  | create w ceil now creator off hash price cat lang lvl dur =>
    simp only [applyOp]
    rcases h : create_course w ceil now s creator off hash price cat lang lvl dur
      with e | pr
    · exact hpos
    · exact create_course_preserves_prices w ceil now s creator off hash price cat lang
        lvl dur pr.1 pr.2 h hpos
  | edit creator cid params =>
    simp only [applyOp]
    rcases h : edit_course s creator cid params with e | pr
    · exact hpos
    · exact edit_course_preserves_prices s creator cid params pr.1 pr.2 h hpos

/-- C8.  After every sequence of course-mutating operations started on the empty
registry, every stored course record has price strictly greater than 0:
`create_course` rejects a zero price before writing and `edit_course` rejects a zero
`new_price` before updating, and failed calls persist nothing. -/
theorem c8_price_invariant (ops : List RegOp) :
    coursePricesPositive (List.foldl applyOp emptyRegistryState ops) := by
  have hfold : ∀ (l : List RegOp) (s : RegistryState), coursePricesPositive s →
      coursePricesPositive (List.foldl applyOp s l) := by
    intro l
    induction l with
    | nil => intro s h; simpa using h
    | cons op rest ih =>
      intro s h
      exact ih (applyOp s op) (applyOp_preserves_prices s op h)
  refine hfold ops emptyRegistryState ?_
  intro id c h
  simp [emptyRegistryState] at h

/-- Witness for C8: a creation followed by a price edit and a failed zero-price
edit. -/
theorem c8_price_invariant_witness :
    coursePricesPositive (List.foldl applyOp emptyRegistryState
      [RegOp.create 10 5 0 4 "r" "h" 100 none none none none,
       RegOp.edit 4 1 { noEditParams with new_price := some 0 }]) :=
  c8_price_invariant
    [RegOp.create 10 5 0 4 "r" "h" 100 none none none none,
     RegOp.edit 4 1 { noEditParams with new_price := some 0 }]

/-- Successful module insertion decomposed: the validations passed, the course
exists, the caller is authorized, the position marker was free, and the returned
module and state have exactly the shapes the source writes (module record plus
position marker). -/
theorem add_module_ok_elim (is_admin : Addr → Bool) (seq ts : Nat) (s : RegistryState)
    (caller : Addr) (cid pos : Nat) (hash : String) (m : CourseModule)
    (s1 : RegistryState)
    (hok : course_registry_add_module is_admin seq ts s caller cid pos hash
      = Except.ok (m, s1)) :
    hash.isEmpty = false ∧ pos ≤ 10000
      ∧ (∃ course, s.courses cid = some course
          ∧ (decide (caller = course.creator) || is_admin caller) = true)
      ∧ s.pos_taken (cid, pos) = false
      ∧ m = { id := (cid, pos, seq), course_id := cid, position := pos
              content_hash := hash, created_at := ts }
      ∧ s1 = { s with
               modules := fun k => if k = (cid, pos, seq) then some m else s.modules k
               pos_taken := fun k => if k = (cid, pos) then true else s.pos_taken k } := by
  unfold course_registry_add_module at hok
  split at hok
  · exact absurd hok (by simp)
  rename_i hhash
  split at hok
  · exact absurd hok (by simp)
  rename_i hposv
  rcases hc : s.courses cid with _ | course
  · rw [hc] at hok
    exact absurd hok (by simp)
  · rw [hc] at hok
    dsimp only at hok
    split at hok
    · rename_i hauth
      split at hok
      · exact absurd hok (by simp)
      rename_i hdup
      rw [Except.ok.injEq, Prod.mk.injEq] at hok
      obtain ⟨hm, hs⟩ := hok
      subst hm
      exact ⟨by simpa using hhash, by omega, ⟨course, rfl, hauth⟩, by simpa using hdup,
        rfl, hs.symm⟩
    · exact absurd hok (by simp)

/-- At a state whose `(course, position)` marker is set, `add_module` never
succeeds, for every caller, oracle, ledger values and content hash. -/
theorem add_module_marked_blocks (is_admin : Addr → Bool) (seq ts : Nat)
    (t : RegistryState) (caller : Addr) (cid pos : Nat) (hash : String)
    (hmark : t.pos_taken (cid, pos) = true) :
    isOkE (course_registry_add_module is_admin seq ts t caller cid pos hash) = false := by
  unfold course_registry_add_module
  split
  · rfl
  split
  · rfl
  rcases hc : t.courses cid with _ | course
  · rfl
  · dsimp only
    by_cases hauth : (decide (caller = course.creator) || is_admin caller) = true
    · simp [hauth, hmark, isOkE]
    · simp [hauth, isOkE]

/-- At a state whose `(course, position)` marker is set, an `add_module` call that
passes the validations, the existence check and the authorization gate fails with
exactly `DuplicateModulePosition`, whatever the content hash. -/
theorem add_module_marked_dup (is_admin : Addr → Bool) (seq ts : Nat)
    (t : RegistryState) (caller : Addr) (cid pos : Nat) (hash : String)
    (course : Course)
    (hmark : t.pos_taken (cid, pos) = true)
    (hcourse : t.courses cid = some course)
    (hauth : caller = course.creator ∨ is_admin caller = true)
    (hhash : hash.isEmpty = false) (hpos : pos ≤ 10000) :
    course_registry_add_module is_admin seq ts t caller cid pos hash
      = Except.error Error.DuplicateModulePosition := by
  have hauthb : (decide (caller = course.creator) || is_admin caller) = true := by
    rcases hauth with h | h <;> simp [h]
  unfold course_registry_add_module
  rw [hcourse]
  simp only [hhash, Bool.false_eq_true, if_false, if_neg (by omega : ¬ 10000 < pos)]
  rw [if_pos hauthb, if_pos hmark]

/-- A successful `add_module` never clears any position marker. -/
theorem add_module_preserves_marker (is_admin : Addr → Bool) (seq ts : Nat)
    (t : RegistryState) (caller : Addr) (cid2 pos2 : Nat) (hash : String)
    (m : CourseModule) (t1 : RegistryState)
    (hok : course_registry_add_module is_admin seq ts t caller cid2 pos2 hash
      = Except.ok (m, t1))
    (cid pos : Nat) (hmark : t.pos_taken (cid, pos) = true) :
    t1.pos_taken (cid, pos) = true := by
  obtain ⟨_, _, _, _, _, hs⟩ :=
    add_module_ok_elim is_admin seq ts t caller cid2 pos2 hash m t1 hok
  rw [hs]
  dsimp only
  by_cases hk : ((cid, pos) : Nat × Nat) = (cid2, pos2)
  · rw [if_pos hk]
  · rw [if_neg hk]
    exact hmark

/-- C4.  At most one module can ever be inserted at a `(course, position)` pair: a
successful `add_module` writes the position marker alongside the module; once a
state carries the marker, every `add_module` at that pair fails — with exactly the
duplicate-position error regardless of the supplied content hash whenever the call
passes the earlier validation/existence/authorization checks — and no `add_module`
(the only operation writing markers) ever clears a marker, so the blocking persists
across all later insertions. -/
theorem c4_module_position_unique (is_admin : Addr → Bool) (seq ts : Nat)
    (s : RegistryState) (caller : Addr) (cid pos : Nat) (hash : String)
    (m : CourseModule) (s1 : RegistryState)
    (hok : course_registry_add_module is_admin seq ts s caller cid pos hash
      = Except.ok (m, s1)) :
    s1.pos_taken (cid, pos) = true
      ∧ (∀ (is_admin2 : Addr → Bool) (seq2 ts2 : Nat) (t : RegistryState)
          (caller2 : Addr) (hash2 : String), t.pos_taken (cid, pos) = true →
          isOkE (course_registry_add_module is_admin2 seq2 ts2 t caller2 cid pos hash2)
            = false)
      ∧ (∀ (is_admin2 : Addr → Bool) (seq2 ts2 : Nat) (t : RegistryState)
          (caller2 : Addr) (hash2 : String) (course : Course),
          t.pos_taken (cid, pos) = true → t.courses cid = some course →
          (caller2 = course.creator ∨ is_admin2 caller2 = true) →
          hash2.isEmpty = false → pos ≤ 10000 →
          course_registry_add_module is_admin2 seq2 ts2 t caller2 cid pos hash2
            = Except.error Error.DuplicateModulePosition)
      ∧ (∀ (is_admin2 : Addr → Bool) (seq2 ts2 : Nat) (t : RegistryState)
          (caller2 : Addr) (cid2 pos2 : Nat) (hash2 : String) (m2 : CourseModule)
          (t1 : RegistryState),
          course_registry_add_module is_admin2 seq2 ts2 t caller2 cid2 pos2 hash2
            = Except.ok (m2, t1) →
          t.pos_taken (cid, pos) = true → t1.pos_taken (cid, pos) = true) := by
  obtain ⟨_, _, _, _, _, hs⟩ :=
    add_module_ok_elim is_admin seq ts s caller cid pos hash m s1 hok
  refine ⟨?_, ?_, ?_, ?_⟩
  · rw [hs]
    dsimp only
    rw [if_pos rfl]
  · intro is_admin2 seq2 ts2 t caller2 hash2 hmark
    exact add_module_marked_blocks is_admin2 seq2 ts2 t caller2 cid pos hash2 hmark
  · intro is_admin2 seq2 ts2 t caller2 hash2 course hmark hcourse hauth hhash hpos
    exact add_module_marked_dup is_admin2 seq2 ts2 t caller2 cid pos hash2 course
      hmark hcourse hauth hhash hpos
  · intro is_admin2 seq2 ts2 t caller2 cid2 pos2 hash2 m2 t1 hok2 hmark
    exact add_module_preserves_marker is_admin2 seq2 ts2 t caller2 cid2 pos2 hash2
      m2 t1 hok2 cid pos hmark

/-- Witness for C4: a successful insertion at (course 1, position 0) on a one-course
registry, by the course creator 5, at ledger sequence 7. -/
theorem c4_module_position_unique_witness :
    c4State1.pos_taken (1, 0) = true
      ∧ (∀ (is_admin2 : Addr → Bool) (seq2 ts2 : Nat) (t : RegistryState)
          (caller2 : Addr) (hash2 : String), t.pos_taken (1, 0) = true →
          isOkE (course_registry_add_module is_admin2 seq2 ts2 t caller2 1 0 hash2)
            = false)
      ∧ (∀ (is_admin2 : Addr → Bool) (seq2 ts2 : Nat) (t : RegistryState)
          (caller2 : Addr) (hash2 : String) (course : Course),
          t.pos_taken (1, 0) = true → t.courses 1 = some course →
          (caller2 = course.creator ∨ is_admin2 caller2 = true) →
          hash2.isEmpty = false → 0 ≤ 10000 →
          course_registry_add_module is_admin2 seq2 ts2 t caller2 1 0 hash2
            = Except.error Error.DuplicateModulePosition)
      ∧ (∀ (is_admin2 : Addr → Bool) (seq2 ts2 : Nat) (t : RegistryState)
          (caller2 : Addr) (cid2 pos2 : Nat) (hash2 : String) (m2 : CourseModule)
          (t1 : RegistryState),
          course_registry_add_module is_admin2 seq2 ts2 t caller2 cid2 pos2 hash2
            = Except.ok (m2, t1) →
          t.pos_taken (1, 0) = true → t1.pos_taken (1, 0) = true) :=
  c4_module_position_unique (fun _ => false) 7 0 c4Start 5 1 0 "h" c4Module c4State1 rfl

/-- When the only module of a course at a position sits at sequence `L`, the probe of
`list_modules` finds it exactly when `L` lies in the probed window. -/
theorem lm_probe_single (s : RegistryState) (cid p L : Nat) (m : CourseModule)
    (hmod : ∀ q, s.modules (cid, p, q) = if q = L then some m else none) :
    ∀ (fuel seq : Nat),
      lm_probe s cid p fuel seq
        = if seq ≤ L ∧ L < seq + fuel then some m else none := by
  intro fuel
  induction fuel with
  | zero =>
    intro seq
    simp only [lm_probe]
    rw [if_neg (by omega : ¬(seq ≤ L ∧ L < seq + 0))]
  | succ fuel ih =>
    intro seq
    simp only [lm_probe, hmod seq]
    by_cases hq : seq = L
    · rw [if_pos hq]
      dsimp only
      rw [if_pos (by omega : seq ≤ L ∧ L < seq + (fuel + 1))]
    · rw [if_neg hq]
      dsimp only
      rw [ih (seq + 1)]
      exact if_congr (by omega) rfl rfl

/-- The position scan of `list_modules` appends nothing from a region with no
position markers. -/
theorem lm_outer_none (s : RegistryState) (cid maxEmpty : Nat) :
    ∀ (fuel pos streak : Nat) (acc : List CourseModule),
      (∀ q, pos ≤ q → s.pos_taken (cid, q) = false) →
      lm_outer s cid maxEmpty fuel pos streak acc = acc := by
  intro fuel
  induction fuel with
  | zero => intro pos streak acc _; rfl
  | succ fuel ih =>
    intro pos streak acc h
    simp only [lm_outer]
    by_cases hs : maxEmpty < streak
    · rw [if_pos hs]
    · rw [if_neg hs, h pos le_rfl]
      simp only [Bool.false_eq_true, if_false]
      exact ih (pos + 1) (streak + 1) acc (fun q hq => h q (by omega))

/-- The position scan of `list_modules` on a course whose single marker sits at
position `p ≤ maxEmpty`: the streak of empty positions below `p` never aborts the
scan, the probe runs at `p`, and nothing follows. -/
theorem lm_outer_single (s : RegistryState) (cid maxEmpty guard p : Nat)
    (hmarks : ∀ q, s.pos_taken (cid, q) = decide (q = p))
    (hp_empty : p ≤ maxEmpty) (hp_guard : p ≤ guard) :
    ∀ (fuel pos : Nat) (acc : List CourseModule),
      fuel + pos = guard + 1 → pos ≤ p →
      lm_outer s cid maxEmpty fuel pos pos acc
        = acc ++ (match lm_probe s cid p 1000 0 with
            | some m => if m.course_id = cid then [m] else []
            | none => []) := by
  intro fuel
  induction fuel with
  | zero =>
    intro pos acc hfuel hpos
    omega
  | succ fuel ih =>
    intro pos acc hfuel hpos
    simp only [lm_outer]
    rw [if_neg (by omega : ¬ maxEmpty < pos)]
    by_cases hpp : pos = p
    · subst hpp
      rw [hmarks pos, if_pos (by simp)]
      rw [lm_outer_none s cid maxEmpty fuel (pos + 1) 0 _
        (fun q hq => by rw [hmarks q]; simp; omega)]
      rcases lm_probe s cid pos 1000 0 with _ | m
      · simp
      · dsimp only
        by_cases hcid : m.course_id = cid
        · rw [if_pos hcid, if_pos hcid]
        · rw [if_neg hcid, if_neg hcid]
          simp
    · rw [hmarks pos, if_neg (by simp [hpp])]
      exact ih (pos + 1) acc (by omega) (by omega)

/-- C5.  Insert a module into a course that has no modules yet, at position `p`
within both scan ceilings, while the ledger sequence is `L`: the module is listed by
`list_modules` exactly when `L < 1000` — when `L ≥ 1000` it is silently omitted from
the listing even though it remains retrievable at its exact storage key. -/
theorem c5_list_modules_probe (is_admin : Addr → Bool) (L ts guard maxEmpty : Nat)
    (s0 : RegistryState) (caller : Addr) (cid p : Nat) (hash : String)
    (m : CourseModule) (s1 : RegistryState)
    (hok : course_registry_add_module is_admin L ts s0 caller cid p hash
      = Except.ok (m, s1))
    (hclean_mark : ∀ q, s0.pos_taken (cid, q) = false)
    (hclean_mod : ∀ q r, s0.modules (cid, q, r) = none)
    (hp_empty : p ≤ maxEmpty) (hp_guard : p ≤ guard) :
    list_modules guard maxEmpty s1 cid
        = Except.ok (if L < 1000 then [m] else [])
      ∧ s1.modules (cid, p, L) = some m := by
  obtain ⟨_, _, ⟨course, hcourse, _⟩, _, hm, hs⟩ :=
    add_module_ok_elim is_admin L ts s0 caller cid p hash m s1 hok
  have hmod : ∀ q r, s1.modules (cid, q, r)
      = if (q, r) = ((p, L) : Nat × Nat) then some m else none := by
    intro q r
    rw [hs]
    dsimp only
    by_cases hq : q = p
    · by_cases hr : r = L
      · subst hq
        subst hr
        rw [if_pos rfl, if_pos rfl]
      · rw [if_neg (by simp [hr]), hclean_mod q r, if_neg (by simp [hr])]
    · rw [if_neg (by simp [hq]), hclean_mod q r, if_neg (by simp [hq])]
  have hmarks : ∀ q, s1.pos_taken (cid, q) = decide (q = p) := by
    intro q
    rw [hs]
    dsimp only
    by_cases hq : q = p
    · subst hq
      rw [if_pos rfl]
      simp
    · rw [if_neg (by simp [hq]), hclean_mark q]
      simp [hq]
  have hmod1 : ∀ r, s1.modules (cid, p, r) = if r = L then some m else none := by
    intro r
    rw [hmod p r]
    exact if_congr (by simp) rfl rfl
  have hcourses : s1.courses cid = some course := by
    rw [hs]
    exact hcourse
  constructor
  · unfold list_modules
    rw [if_neg (by simp [hcourses])]
    rw [lm_outer_single s1 cid maxEmpty guard p hmarks hp_empty hp_guard
      (guard + 1) 0 [] (by omega) (by omega)]
    rw [lm_probe_single s1 cid p L m hmod1 1000 0]
    by_cases hL : L < 1000
    · rw [if_pos (by omega : 0 ≤ L ∧ L < 0 + 1000), if_pos hL]
      dsimp only
      rw [if_pos (by rw [hm])]
      simp
    · rw [if_neg (by omega : ¬(0 ≤ L ∧ L < 0 + 1000)), if_neg hL]
      simp
  · rw [hmod1 L, if_pos rfl]

/-- Witness for C5: inserting at position 0 with ledger sequence 3 (< 1000) on a
state with no modules; the module is listed and retrievable. -/
theorem c5_list_modules_probe_witness :
    list_modules 10 5 c5State1 1 = Except.ok (if 3 < 1000 then [c5Module] else [])
      ∧ c5State1.modules (1, 0, 3) = some c5Module :=
  c5_list_modules_probe (fun _ => false) 3 0 10 5 c4Start 5 1 0 "h" c5Module c5State1
    rfl (fun _ => rfl) (fun _ _ => rfl) (by decide) (by decide)

/-- Identifier allocation along a successful run of creations: as long as the `u128`
counter cannot wrap, each call increments it by exactly one and the `i`-th returned
course carries the decimal id of `(counter + i + 1) mod 2^32`. -/
theorem runCreates_ids (w ceil : Nat) :
    ∀ (reqs : List CreateReq) (s : RegistryState) (cs : List Course)
      (s1 : RegistryState),
      runCreates w ceil s reqs = Except.ok (cs, s1) →
      s.course_counter.getD 0 + reqs.length < U128LIM →
      cs.length = reqs.length
        ∧ s1.course_counter.getD 0 = s.course_counter.getD 0 + reqs.length
        ∧ ∀ i (h : i < cs.length),
            (cs.get ⟨i, h⟩).id = u32cast (s.course_counter.getD 0 + i + 1) := by
  intro reqs
  induction reqs with
  | nil =>
    intro s cs s1 hok _
    simp only [runCreates] at hok
    rw [Except.ok.injEq, Prod.mk.injEq] at hok
    obtain ⟨hcs, hs1⟩ := hok
    subst hcs
    subst hs1
    refine ⟨rfl, by simp, ?_⟩
    intro i h
    exact absurd h (by simp)
  | cons r rs ih =>
    intro s cs s1 hok hbound
    simp only [runCreates] at hok
    rcases hcc : create_course w ceil r.now s r.creator r.off_chain_ref_id
        r.content_hash r.price r.category r.language r.level r.duration_hours
      with e | p
    · rw [hcc] at hok
      exact absurd hok (by simp)
    · rw [hcc] at hok
      obtain ⟨c, s2⟩ := p
      dsimp only at hok
      rcases hrun : runCreates w ceil s2 rs with e | q
      · rw [hrun] at hok
        exact absurd hok (by simp)
      · rw [hrun] at hok
        obtain ⟨cs2, s3⟩ := q
        dsimp only at hok
        rw [Except.ok.injEq, Prod.mk.injEq] at hok
        obtain ⟨hcs, hs1⟩ := hok
        obtain ⟨srate, hrate, _, _, hc, hs⟩ :=
          create_course_ok_elim w ceil r.now s r.creator r.off_chain_ref_id
            r.content_hash r.price r.category r.language r.level r.duration_hours
            c s2 hcc
        obtain ⟨_, hcounter, _, _⟩ := check_rate_ok_elim w ceil r.now s r.creator srate hrate
        have hmod : (s.course_counter.getD 0 + 1) % U128LIM
            = s.course_counter.getD 0 + 1 := by
          apply Nat.mod_eq_of_lt
          simp only [List.length_cons] at hbound
          omega
        have hp2 : s2.course_counter.getD 0 = s.course_counter.getD 0 + 1 := by
          rw [hs]
          dsimp only
          rw [hcounter, hmod]
          rfl
        have hbound2 : s2.course_counter.getD 0 + rs.length < U128LIM := by
          rw [hp2]
          simp only [List.length_cons] at hbound
          omega
        obtain ⟨hlen, hcount, hids⟩ := ih s2 cs2 s3 hrun hbound2
        subst hcs
        subst hs1
        refine ⟨by simp [hlen], ?_, ?_⟩
        · rw [hcount, hp2]
          simp only [List.length_cons]
          omega
        · intro i h
          match i with
          | 0 =>
            show c.id = u32cast (s.course_counter.getD 0 + 0 + 1)
            rw [hc]
            dsimp only
            rw [hcounter, hmod]
          | Nat.succ j =>
            have hj : j < cs2.length := by
              simp only [List.length_cons] at h
              omega
            show (cs2.get ⟨j, hj⟩).id = u32cast (s.course_counter.getD 0 + (j + 1) + 1)
            rw [hids j hj, hp2]
            congr 1
            omega

/-- C3 (amended).  Starting from the empty registry, along every successful sequence
of `create_course` calls the `i`-th created course is allocated identifier
`previous counter + 1` starting at 1 (the counter is read with default 0,
incremented, and persisted), and its stored id string is the decimal rendering of
`(i mod 2^32)` — equal to `i` whenever `i < 2^32`.  (The source truncates the `u128`
counter with `as u32` before rendering, so the `2^32`-th successful creation stores
id "0"; see the counterexample.) -/
theorem c3_id_allocation (w ceil : Nat) (reqs : List CreateReq) (cs : List Course)
    (s1 : RegistryState)
    (hok : runCreates w ceil emptyRegistryState reqs = Except.ok (cs, s1))
    (hlen : reqs.length < U128LIM) :
    cs.length = reqs.length
      ∧ s1.course_counter.getD 0 = reqs.length
      ∧ (∀ i (h : i < cs.length), (cs.get ⟨i, h⟩).id = u32cast (i + 1))
      ∧ (∀ i (h : i < cs.length), i + 1 < U32LIM → (cs.get ⟨i, h⟩).id = i + 1) := by
  obtain ⟨hl, hcount, hids⟩ := runCreates_ids w ceil reqs emptyRegistryState cs s1 hok
    (by simpa [emptyRegistryState] using hlen)
  have hids' : ∀ i (h : i < cs.length), (cs.get ⟨i, h⟩).id = u32cast (i + 1) := by
    intro i h
    simpa [emptyRegistryState] using hids i h
  refine ⟨hl, by simpa [emptyRegistryState] using hcount, hids', ?_⟩
  intro i h hi
  rw [hids' i h]
  exact Nat.mod_eq_of_lt hi

/-- Witness for C3: two successful creations from the empty registry get ids 1
and 2. -/
theorem c3_id_allocation_witness :
    c3wCourses.length = ([c3Req, c3Req] : List CreateReq).length
      ∧ c3wState.course_counter.getD 0 = ([c3Req, c3Req] : List CreateReq).length
      ∧ (∀ i (h : i < c3wCourses.length),
          (c3wCourses.get ⟨i, h⟩).id = u32cast (i + 1))
      ∧ (∀ i (h : i < c3wCourses.length), i + 1 < U32LIM →
          (c3wCourses.get ⟨i, h⟩).id = i + 1) :=
  c3_id_allocation 10 5 [c3Req, c3Req] c3wCourses c3wState rfl (by decide)

/-- Constructive form of a passing rate-limit check: with the stored record `r`,
no window reset due, and the ceiling not exceeded, the check increments and
persists the counter. -/
theorem check_rate_ok_intro (w ceil now : Nat) (s : RegistryState) (creator : Addr)
    (r : RateRecord)
    (hr : (s.rate creator).getD { count := 0, window_start := now } = r)
    (hreset : ¬ (r.window_start + w ≤ now))
    (hceil : ¬ (ceil < r.count + 1)) :
    check_course_creation_rate_limit w ceil now s creator
      = Except.ok { s with rate := fun a =>
          (if a = creator then
            some { count := r.count + 1, window_start := r.window_start }
          else s.rate a) } := by
  simp only [check_course_creation_rate_limit, hr]
  rw [if_neg hreset, if_neg hceil]

/-- Constructive form of a successful creation without optional fields: the rate
check passed, the required fields are valid, and the allocated key is free. -/
theorem create_course_ok_intro (w ceil now : Nat) (s srate : RegistryState)
    (creator : Addr) (off hash : String) (price : Nat)
    (hrate : check_course_creation_rate_limit w ceil now s creator = Except.ok srate)
    (hoff : off.isEmpty = false) (hhash : hash.isEmpty = false) (hprice : price ≠ 0)
    (hdup : srate.courses (u32cast ((srate.course_counter.getD 0 + 1) % U128LIM))
      = none) :
    create_course w ceil now s creator off hash price none none none none
      = Except.ok
          ({ id := u32cast ((srate.course_counter.getD 0 + 1) % U128LIM)
             off_chain_ref_id := off, content_hash := hash, creator := creator
             price := price, category := none, language := none, published := false
             prerequisites := [], is_archived := false, level := none
             duration_hours := none },
           { srate with
             course_counter := some ((srate.course_counter.getD 0 + 1) % U128LIM)
             courses := fun k =>
               if k = u32cast ((srate.course_counter.getD 0 + 1) % U128LIM) then
                 some { id := u32cast ((srate.course_counter.getD 0 + 1) % U128LIM)
                        off_chain_ref_id := off, content_hash := hash
                        creator := creator, price := price, category := none
                        language := none, published := false, prerequisites := []
                        is_archived := false, level := none, duration_hours := none }
               else srate.courses k }) := by
  unfold create_course generate_course_id
  rw [hrate]
  dsimp only
  simp only [hoff, hhash, Bool.false_eq_true, if_false, if_neg hprice, hdup,
    Option.isSome_none]

/-- Two registry states with equal fields are equal. -/
theorem regState_ext (a b : RegistryState)
    (h1 : a.course_counter = b.course_counter) (h2 : a.courses = b.courses)
    (h3 : a.modules = b.modules) (h4 : a.pos_taken = b.pos_taken)
    (h5 : a.rate = b.rate) : a = b := by
  cases a
  cases b
  cases h1
  cases h2
  cases h3
  cases h4
  cases h5
  rfl

/-- One step of the wrap run: from the state after `k` creations, the next creation
succeeds and stores the course with identifier `k + 1`. -/
theorem cx_step (k : Nat) (hk : k + 1 < U32LIM) :
    create_course 1 (U32LIM + 1) cxReq.now (cxState k) cxReq.creator
        cxReq.off_chain_ref_id cxReq.content_hash cxReq.price cxReq.category
        cxReq.language cxReq.level cxReq.duration_hours
      = Except.ok (cxCourse (k + 1), cxState (k + 1)) := by
  show create_course 1 (U32LIM + 1) 0 (cxState k) 4 "r" "h" 1 none none none none
    = Except.ok (cxCourse (k + 1), cxState (k + 1))
  have hr : ((cxState k).rate 4).getD { count := 0, window_start := 0 }
      = { count := k, window_start := 0 } := by
    unfold cxState
    dsimp only
    by_cases hk0 : k = 0
    · subst hk0
      rw [if_neg (by simp)]
      rfl
    · rw [if_pos ⟨rfl, hk0⟩]
      rfl
  have hrate := check_rate_ok_intro 1 (U32LIM + 1) 0 (cxState k) 4
    { count := k, window_start := 0 } hr (by dsimp only; omega) (by dsimp only; omega)
  have hgct : ((cxState k).course_counter).getD 0 = k := by
    unfold cxState
    dsimp only
    by_cases hk0 : k = 0
    · subst hk0
      rw [if_pos rfl]
      rfl
    · rw [if_neg hk0]
      rfl
  have hUlt : k + 1 < U128LIM := by
    have h32 : U32LIM < U128LIM := by decide
    omega
  have hmodk : (k + 1) % U128LIM = k + 1 := Nat.mod_eq_of_lt hUlt
  have hck : u32cast (k + 1) = k + 1 := Nat.mod_eq_of_lt hk
  have hdup : (cxState k).courses
      (u32cast (((cxState k).course_counter.getD 0 + 1) % U128LIM)) = none := by
    rw [hgct, hmodk, hck]
    unfold cxState
    dsimp only
    rw [if_neg (by omega)]
  have hmain := create_course_ok_intro 1 (U32LIM + 1) 0 (cxState k)
      (RegistryState.mk (cxState k).course_counter (cxState k).courses
        (cxState k).modules (cxState k).pos_taken
        (fun a => if a = 4 then some { count := k + 1, window_start := 0 }
          else (cxState k).rate a))
      4 "r" "h" 1 hrate rfl rfl (by omega) hdup
  rw [hmain]
  dsimp only
  rw [hgct, hmodk, hck]
  refine congrArg Except.ok (Prod.ext ?_ ?_)
  · show Course.mk (k + 1) "r" "h" 4 1 none none false [] false none none
      = cxCourse (k + 1)
    unfold cxCourse
    rw [hck]
  · apply regState_ext
    · show some (k + 1) = (cxState (k + 1)).course_counter
      unfold cxState
      dsimp only
      rw [if_neg (by omega : ¬ k + 1 = 0)]
    · show (fun j => if j = k + 1 then
          some (Course.mk (k + 1) "r" "h" 4 1 none none false [] false none none)
          else (cxState k).courses j) = (cxState (k + 1)).courses
      funext j
      unfold cxState
      dsimp only
      by_cases hj : j = k + 1
      · subst hj
        rw [if_pos rfl, if_pos (by omega)]
        unfold cxCourse
        rw [hck]
      · rw [if_neg hj]
        by_cases hj2 : 1 ≤ j ∧ j ≤ k
        · rw [if_pos hj2, if_pos (by omega)]
        · rw [if_neg hj2, if_neg (by omega)]
    · rfl
    · rfl
    · show (fun a => if a = 4 then some { count := k + 1, window_start := 0 }
          else (cxState k).rate a) = (cxState (k + 1)).rate
      funext a
      unfold cxState
      dsimp only
      by_cases ha : a = 4
      · subst ha
        rw [if_pos rfl, if_pos ⟨rfl, by omega⟩]
      · rw [if_neg ha, if_neg (by simp [ha]), if_neg (by simp [ha])]

/-- The wrap run: `L` consecutive creations from the state after `k` of them, while
the `u32` range is not yet exhausted, all succeed and store identifiers
`k+1 .. k+L`. -/
theorem cx_run : ∀ (L k : Nat), k + L < U32LIM →
    runCreates 1 (U32LIM + 1) (cxState k) (List.replicate L cxReq)
      = Except.ok ((List.range' (k + 1) L).map cxCourse, cxState (k + L)) := by
  intro L
  induction L with
  | zero =>
    intro k h
    rfl
  | succ L ih =>
    intro k h
    rw [List.replicate_succ]
    simp only [runCreates]
    rw [cx_step k (by omega)]
    dsimp only
    rw [ih (k + 1) (by omega)]
    dsimp only
    rw [List.range'_succ]
    rw [show k + 1 + L = k + (L + 1) from by omega]
    rfl

/-- Running a concatenation of request lists is running the pieces in sequence. -/
theorem runCreates_append (w ceil : Nat) :
    ∀ (l1 l2 : List CreateReq) (s : RegistryState),
      runCreates w ceil s (l1 ++ l2)
        = (match runCreates w ceil s l1 with
           | Except.error e => Except.error e
           | Except.ok p =>
             match runCreates w ceil p.2 l2 with
             | Except.error e => Except.error e
             | Except.ok q => Except.ok (p.1 ++ q.1, q.2)) := by
  intro l1
  induction l1 with
  | nil =>
    intro l2 s
    simp only [List.nil_append, runCreates]
    rcases h : runCreates w ceil s l2 with e | q
    · rfl
    · dsimp only
  | cons r rs ih =>
    intro l2 s
    simp only [List.cons_append, runCreates]
    rcases hc : create_course w ceil r.now s r.creator r.off_chain_ref_id
        r.content_hash r.price r.category r.language r.level r.duration_hours
      with e | p
    · rfl
    · obtain ⟨c, s1⟩ := p
      dsimp only
      simp only [List.append_eq]
      rw [ih l2 s1]
      rcases h1 : runCreates w ceil s1 rs with e | q
      · rfl
      · obtain ⟨cs1, s2⟩ := q
        dsimp only
        rcases h2 : runCreates w ceil s2 l2 with e | q2
        · rfl
        · dsimp only
          rw [List.cons_append]

/-- The `2^32`-th creation of the wrap run succeeds but stores the course under the
wrapped identifier string "0" (`u32cast` of `2^32`). -/
theorem cx_last :
    create_course 1 (U32LIM + 1) cxReq.now (cxState (U32LIM - 1)) cxReq.creator
        cxReq.off_chain_ref_id cxReq.content_hash cxReq.price cxReq.category
        cxReq.language cxReq.level cxReq.duration_hours
      = Except.ok (cxCourse U32LIM, cxFinal) := rfl

/-- C3 as stated is false at the `2^32`-th creation: a run of `2^32` creations from
the empty registry succeeds call by call, but the last returned course's id is the
decimal string "0", not the decimal string of `2^32` — the `u128` counter value is
truncated by `as u32` before rendering. -/
theorem c3_counterexample :
    runCreates 1 (U32LIM + 1) emptyRegistryState (List.replicate U32LIM cxReq)
        = Except.ok (cxFullCourses, cxFinal)
      ∧ cxFullCourses.length = U32LIM
      ∧ cxFullCourses.getLast? = some (cxCourse U32LIM)
      ∧ (cxCourse U32LIM).id = 0
      ∧ (0 : Nat) ≠ U32LIM := by
  have h1 : 1 ≤ U32LIM := by decide
  refine ⟨?_, ?_, ?_, rfl, by decide⟩
  · have hempty : emptyRegistryState = cxState 0 := by
      apply regState_ext
      · rfl
      · funext j
        show none = (cxState 0).courses j
        unfold cxState
        dsimp only
        rw [if_neg (by omega)]
      · rfl
      · rfl
      · funext a
        show none = (cxState 0).rate a
        unfold cxState
        dsimp only
        rw [if_neg (by simp)]
    have hsplit : List.replicate U32LIM cxReq
        = List.replicate (U32LIM - 1) cxReq ++ [cxReq] := by
      have h2 : U32LIM = (U32LIM - 1) + 1 := by omega
      nth_rewrite 1 [h2]
      rw [List.replicate_succ']
    rw [hempty, hsplit, runCreates_append]
    rw [cx_run (U32LIM - 1) 0 (by omega)]
    dsimp only
    rw [show (0 : Nat) + (U32LIM - 1) = U32LIM - 1 from by omega]
    simp only [runCreates]
    rw [cx_last]
    dsimp only
    rfl
  · unfold cxFullCourses
    rw [List.length_append, List.length_map, List.length_range']
    simp only [List.length_cons, List.length_nil]
    omega
  · unfold cxFullCourses
    exact List.getLast?_concat _

end SkillCert

